import Mathlib

/-!
Shallow embedding of the nostr-rs-relay sources (src/db.rs, src/server.rs,
src/authentication.rs) and verification of the frozen claims about them.

Conventions:
* Rust `u64` timestamps, kinds and sizes are modelled as `Nat` (the code
  performs no arithmetic on them that could wrap).
* `hex::decode` is modelled by `hexDecode?`, returning `none` exactly when the
  Rust function returns `Err` (odd length or a non-hex character).
* SQLite behaviour relevant to the embedded SQL is modelled at the relational
  level; each definition carries a comment naming the SQL fragment it
  interprets.
* Fallible operations return `Except`/`Option`; a Rust `unwrap()` on a value
  that can actually be an error is modelled as an explicit panic outcome.
-/

/-- Model of `char::is_ascii_hexdigit` (used by `is_hex` in db.rs). -/
def is_ascii_hexdigit (c : Char) : Bool :=
  (('0' ≤ c) && (c ≤ '9')) || (('a' ≤ c) && (c ≤ 'f')) || (('A' ≤ c) && (c ≤ 'F'))

/-- db.rs `is_hex`: `s.chars().all(|x| char::is_ascii_hexdigit(&x))`.
Note that the empty string and odd-length hex strings pass this check. -/
def is_hex (s : String) : Bool :=
  s.toList.all is_ascii_hexdigit

/-- Numeric value of one hex digit (helper for the `hex::decode` model). -/
def hexDigitVal (c : Char) : Nat :=
  if c ≤ '9' then c.toNat - '0'.toNat
  else if c ≤ 'F' then c.toNat - 'A'.toNat + 10
  else c.toNat - 'a'.toNat + 10

/-- Decode a list of hex characters two at a time; `none` on an odd-length
list or a non-hex character (mirrors the error cases of `hex::decode`). -/
def hexPairs : List Char → Option (List Nat)
  | [] => some []
  | [_] => none
  | a :: b :: rest =>
    if is_ascii_hexdigit a && is_ascii_hexdigit b then
      (hexPairs rest).map (fun l => (hexDigitVal a * 16 + hexDigitVal b) :: l)
    else
      none

/-- Model of `hex::decode`: a byte blob on success, `none` on failure. -/
def hexDecode? (s : String) : Option (List Nat) :=
  hexPairs s.toList

/-- The event entity (event.rs is not under src/; the fields are the ones the
sources under src/ read: `id`, `pubkey`, `created_at`, `kind`, `tags`,
`content`, `sig`, matching the spec's event object). -/
structure Event where
  id : String
  pubkey : String
  created_at : Nat
  kind : Nat
  tags : List (List String)
  content : String
  sig : String
deriving DecidableEq, Repr

/-- Modelled from the spec: `tag_values(name)` is the accessor over tag
entries whose first element names the tag, yielding each tag's value
(second element).  Used by server.rs as `event.tag_values_by_name("p")`. -/
def tag_values_by_name (name : String) (e : Event) : List String :=
  e.tags.filterMap (fun t =>
    if t.head? == some name then t.get? 1 else none)

/-- db.rs `e.get_event_tags()`: the values of tags named e. -/
def get_event_tags (e : Event) : List String :=
  tag_values_by_name "e" e

/-- db.rs `e.get_pubkey_tags()`: the values of tags named p. -/
def get_pubkey_tags (e : Event) : List String :=
  tag_values_by_name "p" e

/-- Model of `serde_json::to_string(&e)`.  The exact format is irrelevant to
every claim (the serialized string is only stored and forwarded); the model
concatenates the fields.  `serde_json::to_string` on this struct never fails,
so the model is total. -/
def serialize_event (e : Event) : String :=
  "id:" ++ e.id ++ ";pubkey:" ++ e.pubkey ++ ";created_at:" ++ toString e.created_at ++
    ";kind:" ++ toString e.kind ++ ";content:" ++ e.content ++ ";sig:" ++ e.sig

/-- One row of the `event` table together with its rows in the `event_ref`
and `pubkey_ref` join tables (the schema ties each `event_ref`/`pubkey_ref`
row to exactly one `event` row by foreign key, so the store is modelled as a
list of event rows each carrying its reference rows). -/
structure Row where
  event_hash : List Nat
  first_seen : Nat
  created_at : Nat
  author : List Nat
  kind : Nat
  content : String
  erefs : List (List Nat)
  prefs : List (List Nat)
deriving DecidableEq, Repr

/-- The event store: the rows of the `event` table (with their reference
rows), in insertion (rowid) order.  `event_hash` carries a UNIQUE index. -/
abbrev Store := List Row

/-- Store-level errors (db.rs returns `crate::error::Result`). -/
inductive StoreErr where
  | unavailable
deriving DecidableEq, Repr

/-- db.rs `write_event`: one transaction that INSERT OR IGNOREs the event row
and then its e-tag / p-tag reference rows, committing at the end.

Faithfulness notes, keyed to the source:
* `hex::decode(&e.id).ok()` / `hex::decode(&e.pubkey).ok()` bind NULL when the
  string is not valid hex.  `event_hash` and `author` are NOT NULL columns,
  and INSERT OR IGNORE resolves a NOT NULL violation by skipping the row, so
  the statement reports 0 changed rows and `write_event` returns `Ok(0)`.
* A duplicate `event_hash` violates the UNIQUE index `event_hash_index`;
  INSERT OR IGNORE skips the row and the statement reports 0 changed rows.
  In both 0-row cases the function returns before `tx.commit()`, so the
  store is unchanged.
* Reference rows whose tag value fails `hex::decode` would bind NULL into a
  NOT NULL column; INSERT OR IGNORE skips exactly those rows, hence the
  `filterMap hexDecode?`.
* `io_fault` models a failing `tx.commit()` (or any statement-level I/O
  error) on the inserting path: the transaction rolls back and `write_event`
  returns `Err`, leaving the store unchanged.  This is the only genuinely
  fallible step once the parameters are bound.
* `now` models `strftime('%s','now')` for the `first_seen` column. -/
def write_event (io_fault : Bool) (now : Nat) (s : Store) (e : Event) :
    Except StoreErr (Nat × Store) :=
  match hexDecode? e.id, hexDecode? e.pubkey with
  | some id_blob, some pubkey_blob =>
    if s.any (fun r => r.event_hash == id_blob) then
      -- duplicate: INSERT OR IGNORE changed no row, early return, no commit
      Except.ok (0, s)
    else if io_fault then
      Except.error StoreErr.unavailable
    else
      Except.ok (1, s ++ [{ event_hash := id_blob
                          , first_seen := now
                          , created_at := e.created_at
                          , author := pubkey_blob
                          , kind := e.kind
                          , content := serialize_event e
                          , erefs := (get_event_tags e).filterMap hexDecode?
                          , prefs := (get_pubkey_tags e).filterMap hexDecode? }])
  | _, _ =>
    -- a NULL event_hash or author: the row is skipped, 0 changed rows
    Except.ok (0, s)

/-- db.rs `db_writer`, the ingest loop: drain the queue; for each event call
`write_event`; broadcast the event (`bcast_tx.send`) exactly when the call
returned `Ok` with a non-zero count.  The queue is modelled as the list of
events received before the channel closes, each paired with the I/O-fault
flag of its `write_event` call.  Returns the final store and the list of
events sent on the broadcast channel, in send order. -/
def db_writer_run (now : Nat) : Store → List (Event × Bool) → Store × List Event
  | s, [] => (s, [])
  | s, (e, fault) :: rest =>
    match write_event fault now s e with
    | Except.ok (updated, s2) =>
      if updated == 0 then
        db_writer_run now s2 rest
      else
        let r := db_writer_run now s2 rest
        (r.1, e :: r.2)
    | Except.error _ => db_writer_run now s rest

/-- The per-event results of the ingest loop's `write_event` calls, in queue
order (the insert count on success, or the error). -/
def write_trace (now : Nat) : Store → List (Event × Bool) → List (Event × Except StoreErr Nat)
  | _, [] => []
  | s, (e, fault) :: rest =>
    match write_event fault now s e with
    | Except.ok (updated, s2) => (e, Except.ok updated) :: write_trace now s2 rest
    | Except.error err => (e, Except.error err) :: write_trace now s rest

/-- One filter of a subscription.  The fields read by db.rs
`query_from_sub` are `authors`, `kind`, `id`, `event`, `pubkey`, `since`.
The `limit` field is Modelled from the spec: the spec's ReqFilter carries a
result limit (subscription.rs is not under src/); no code under src/ reads
it. -/
structure ReqFilter where
  authors : Option (List String) := none
  kind : Option Nat := none
  id : Option String := none
  event : Option String := none
  pubkey : Option String := none
  since : Option Nat := none
  limit : Option Nat := none
deriving DecidableEq, Repr

/-- A subscription: a client-chosen id and its ordered filters. -/
structure Subscription where
  id : String
  filters : List ReqFilter
deriving DecidableEq, Repr

/-- `sub.get_id()`. -/
def Subscription.get_id (s : Subscription) : String := s.id

/-- The single-quote character, written via its code point so that SQL blob
literals can be rendered verbatim. -/
def squote : String := String.singleton (Char.ofNat 39)

/-- Render a SQLite blob literal from a hex string, as the `format!("x'{}'",
x)` calls in `query_from_sub` do. -/
def blob_lit (s : String) : String := "x" ++ squote ++ s ++ squote

/-- db.rs `query_from_sub`, inner loop: the `filter_components` vector built
for one filter, in source order (authors, kind, id, event, pubkey, since).
Non-hex authors are filtered out of the IN list; a non-hex id / event /
pubkey contributes no component at all. -/
def filter_components (f : ReqFilter) : List String :=
  (match f.authors with
   | some as =>
     ["author IN (" ++ String.intercalate ", " ((as.filter is_hex).map blob_lit) ++ ")"]
   | none => []) ++
  (match f.kind with
   | some k => ["kind = " ++ toString k]
   | none => []) ++
  (match f.id with
   | some s => if is_hex s then ["event_hash = " ++ blob_lit s] else []
   | none => []) ++
  (match f.event with
   | some s => if is_hex s then ["referenced_event = " ++ blob_lit s] else []
   | none => []) ++
  (match f.pubkey with
   | some s => if is_hex s then ["referenced_pubkey = " ++ blob_lit s] else []
   | none => []) ++
  (match f.since with
   | some t => ["created_at > " ++ toString t]
   | none => [])

/-- The WHERE clause generated for one filter: the AND of its components in
parentheses, or ` 1=1 ` when the filter produced no component. -/
def filter_clause (f : ReqFilter) : String :=
  let fc := filter_components f
  if fc.isEmpty then " 1=1 "
  else "( " ++ String.intercalate " AND " fc ++ " )"

/-- db.rs `query_from_sub`: the dynamically built SQL string. -/
def query_from_sub (sub : Subscription) : String :=
  let base := "SELECT DISTINCT(e.content) FROM event e LEFT JOIN event_ref er ON e.id=er.event_id LEFT JOIN pubkey_ref pr ON e.id=pr.event_id "
  let filter_clauses := sub.filters.map filter_clause
  if filter_clauses.isEmpty then base
  else base ++ " WHERE " ++ String.intercalate " OR " filter_clauses

/-- Relational semantics of the clause `query_from_sub` generates for one
filter, evaluated at one `event` row.  Derivation from the SQL, component by
component:
* `author IN (x'..', ...)`: the row's author blob is a member of the decoded
  literals (an empty IN list is false in SQLite);
* `kind = k` / `created_at > t`: direct comparisons on the row;
* `event_hash = x'h'`: the row's hash equals the decoded literal;
* `referenced_event = x'h'` / `referenced_pubkey = x'h'`: the query LEFT
  JOINs `event_ref` and `pubkey_ref`; a join row exists for every pair of the
  event's reference rows (NULL when it has none, and a comparison with NULL
  is not true), and the two components constrain independent join columns,
  so the clause holds of some join row iff each reference component is
  witnessed by some reference row of the event.
The `none` branches for a malformed blob literal are unreachable: such a
query fails to prepare (see `query_well_formed` / `db_query`). -/
def filter_matches_row (f : ReqFilter) (r : Row) : Bool :=
  (match f.authors with
   | some as => ((as.filter is_hex).filterMap hexDecode?).any (fun b => r.author == b)
   | none => true) &&
  (match f.kind with
   | some k => r.kind == k
   | none => true) &&
  (match f.id with
   | some s =>
     if is_hex s then
       match hexDecode? s with
       | some b => r.event_hash == b
       | none => false
     else true
   | none => true) &&
  (match f.event with
   | some s =>
     if is_hex s then
       match hexDecode? s with
       | some b => r.erefs.contains b
       | none => false
     else true
   | none => true) &&
  (match f.pubkey with
   | some s =>
     if is_hex s then
       match hexDecode? s with
       | some b => r.prefs.contains b
       | none => false
     else true
   | none => true) &&
  (match f.since with
   | some t => t < r.created_at
   | none => true)

/-- Whether the generated WHERE clause selects the row: the OR of the filter
clauses; with no filter at all no WHERE clause is emitted and every row is
selected. -/
def row_selected (sub : Subscription) (r : Row) : Bool :=
  sub.filters.isEmpty || sub.filters.any (fun f => filter_matches_row f r)

/-- `SELECT DISTINCT(...)`: keep the first occurrence of each value. -/
def dedup_go (seen : List String) : List String → List String
  | [] => []
  | x :: xs =>
    if seen.contains x then dedup_go seen xs
    else x :: dedup_go (x :: seen) xs

/-- DISTINCT over the selected contents, in row scan order. -/
def dedup_first (l : List String) : List String := dedup_go [] l

/-- The rows streamed by the generated query: the DISTINCT contents of the
selected rows. -/
def query_results (sub : Subscription) (rows : Store) : List String :=
  dedup_first ((rows.filter (row_selected sub)).map (fun r => r.content))

/-- A successfully prepared query: every hex string that `query_from_sub`
embedded as a blob literal has even length.  `is_hex` accepts odd-length
strings, but SQLite rejects a blob literal with an odd number of digits at
prepare time, so `conn.prepare(&q)` returns `Err` exactly when some
incorporated literal is odd-length. -/
def filter_well_formed (f : ReqFilter) : Bool :=
  (match f.authors with
   | some as => (as.filter is_hex).all (fun s => s.length % 2 == 0)
   | none => true) &&
  (match f.id with
   | some s => !is_hex s || s.length % 2 == 0
   | none => true) &&
  (match f.event with
   | some s => !is_hex s || s.length % 2 == 0
   | none => true) &&
  (match f.pubkey with
   | some s => !is_hex s || s.length % 2 == 0
   | none => true)

/-- A query prepares iff every filter incorporated only even-length
literals. -/
def query_well_formed (sub : Subscription) : Bool :=
  sub.filters.all filter_well_formed

/-- Event resulting from a specific subscription request (db.rs
`QueryResult`). -/
structure QueryResult where
  sub_id : String
  event : String
deriving DecidableEq, Repr

/-- Outcome of the blocking closure spawned by `db_query`: either the worker
panicked on an `unwrap()`, or it ran to completion having sent the listed
results. -/
inductive QueryRun where
  | panicked
  | completed (sent : List QueryResult)
deriving DecidableEq, Repr

/-- db.rs `db_query`, the blocking query worker.  `db_available` models
whether `Connection::open_with_flags` succeeds; its result and the result of
`conn.prepare(&q)` are both `unwrap()`ed, so a missing database or a
malformed generated query panics the worker instead of surfacing an error.
Row stepping and `row.get(0)` act on a well-typed store (`content` is a
non-NULL TEXT column), so past prepare the model streams every selected row.
The run modelled is the one in which `abandon_query_rx` never fires. -/
def db_query (db_available : Bool) (sub : Subscription) (rows : Store) : QueryRun :=
  if !db_available then
    QueryRun.panicked
  else if !query_well_formed sub then
    QueryRun.panicked
  else
    QueryRun.completed ((query_results sub rows).map
      (fun c => { sub_id := sub.get_id, event := c }))

/-- The settings fields the embedded server code reads:
`settings.authorization.nip42_dms`, `settings.limits.limit_scrapers`,
`settings.pay_to_relay.auth_secret`, and (Modelled from the spec, since
conn.rs is not under src/) the bound on the per-connection subscription
count. -/
structure Settings where
  nip42_dms : Bool := false
  limit_scrapers : Bool := false
  max_subs : Nat := 32
  auth_secret : String := ""
deriving DecidableEq, Repr

/-- Modelled from the spec: the per-connection state held by
`conn::ClientConn` (conn.rs is not under src/): the mapping from
subscription id to Subscription, bounded in count, and the authentication
state (`auth_pubkey()` is the authenticated pubkey, if any). -/
structure ClientConn where
  subscriptions : List (String × Subscription) := []
  auth_pubkey : Option String := none
deriving DecidableEq, Repr

/-- Modelled from the spec: `conn.has_subscription(&s)` — "Duplicate
identical open requests are ignored" — holds when an identical subscription
(same id and filters) is already registered. -/
def has_subscription (c : ClientConn) (s : Subscription) : Bool :=
  c.subscriptions.any (fun p => p.2 == s)

/-- Replace the registry entry carrying the subscription's id. -/
def replace_sub (l : List (String × Subscription)) (s : Subscription) :
    List (String × Subscription) :=
  l.map (fun p => if p.1 = s.id then (s.id, s) else p)

/-- Modelled from the spec: `conn.subscribe(s)` — receiving
`open-subscription` for an already-used id "replaces the filter set
atomically"; the registry is "bounded in size and count", so registering a
fresh id beyond the bound fails with a subscription error. -/
def ClientConn.subscribe (settings : Settings) (c : ClientConn) (s : Subscription) :
    Except String ClientConn :=
  match List.lookup s.id c.subscriptions with
  | some _ => Except.ok { c with subscriptions := replace_sub c.subscriptions s }
  | none =>
    if settings.max_subs ≤ c.subscriptions.length then
      Except.error "max concurrent subscription count reached"
    else
      Except.ok { c with subscriptions := c.subscriptions ++ [(s.id, s)] }

/-- Modelled from the spec: `s.is_scraper()` — "true iff no filter
constrains authors, ids, kinds, or reference sets" (subscription.rs is not
under src/). -/
def Subscription.is_scraper (s : Subscription) : Bool :=
  s.filters.all (fun f =>
    f.authors.isNone && f.id.isNone && f.kind.isNone && f.event.isNone && f.pubkey.isNone)

/-- Modelled from the spec: `s.needs_historical_events()` — "false iff every
filter has `since ≥ now`" (subscription.rs is not under src/). -/
def needs_historical_events (now : Nat) (s : Subscription) : Bool :=
  !(s.filters.all (fun f =>
    match f.since with
    | some t => now ≤ t
    | none => false))

/-- Modelled from the spec: the live-path interest predicate of one filter —
"a filter matches iff every present predicate matches", the predicates being
author set, kind, id, referenced events, referenced pubkeys and the
`since` bound (subscription.rs is not under src/; the time bound mirrors the
strict `created_at > since` the query path uses). -/
def filter_matches_event (f : ReqFilter) (e : Event) : Bool :=
  (match f.authors with
   | some as => as.contains e.pubkey
   | none => true) &&
  (match f.kind with
   | some k => e.kind == k
   | none => true) &&
  (match f.id with
   | some i => e.id == i
   | none => true) &&
  (match f.event with
   | some v => (get_event_tags e).contains v
   | none => true) &&
  (match f.pubkey with
   | some v => (get_pubkey_tags e).contains v
   | none => true) &&
  (match f.since with
   | some t => t < e.created_at
   | none => true)

/-- Modelled from the spec: `sub.interested_in_event(&event)` — "matches an
event iff any filter matches". -/
def interested_in_event (s : Subscription) (e : Event) : Bool :=
  s.filters.any (fun f => filter_matches_event f e)

/-- server.rs `allowed_to_send`.  The `event_str` argument is a serialized
event; the model takes the result of `serde_json::from_str::<Event>` on it
(`none` for a string that does not parse). -/
def allowed_to_send (parsed : Option Event) (conn : ClientConn) (settings : Settings) :
    Bool :=
  if settings.nip42_dms then
    match parsed with
    | some event =>
      if event.kind == 4 || event.kind == 44 || event.kind == 1059 then
        match conn.auth_pubkey, (tag_values_by_name "p" event).head? with
        | some auth_pubkey, some recipient_pubkey =>
          recipient_pubkey == auth_pubkey || event.pubkey == auth_pubkey
        | _, _ => false
      else true
    | none => false
  else true

/-- The broadcast-receive arm of the `nostr_server` select loop: for each
registered subscription whose filters match the event, if the outbound
policy allows it, an EVENT frame `(sub id, serialized event)` is sent.  The
serialized event parses back to the event itself, so `allowed_to_send`
receives `some e`. -/
def live_frames (settings : Settings) (c : ClientConn) (e : Event) :
    List (String × String) :=
  c.subscriptions.filterMap (fun p =>
    if interested_in_event p.2 e then
      if allowed_to_send (some e) c settings then
        some (p.1, serialize_event e)
      else none
    else none)

/-- Effects the REQ arm of the select loop can produce. -/
inductive SrvAction where
  | sendEOSE (sub_id : String)
  | cancelQuery (handle : Nat)
  | startQuery (s : Subscription)
  | notice (msg : String)
deriving DecidableEq, Repr

/-- The connection task's mutable state around subscriptions: the client
connection state and the `running_queries` map from subscription id to the
one-shot cancellation handle of its historical query.  Handles are numbered;
`next_handle` models creating a fresh `oneshot::channel`. -/
structure ConnTaskState where
  conn : ClientConn
  running_queries : List (String × Nat) := []
  next_handle : Nat := 0
deriving DecidableEq, Repr

/-- server.rs `nostr_server`, the `NostrMessage::SubMsg` arm: ignore an
identical duplicate; short-circuit a scraper with a single EOSE when scraper
limiting is on; otherwise register the subscription, cancel the previous
query registered under the same id (if any) and start a historical query
when one is needed.  The rate limiter only delays this arm, so it has no
effect on the resulting state or actions. -/
def handle_req (settings : Settings) (now : Nat) (st : ConnTaskState)
    (s : Subscription) : ConnTaskState × List SrvAction :=
  if has_subscription st.conn s then
    (st, [])
  else if settings.limit_scrapers && s.is_scraper then
    (st, [SrvAction.sendEOSE s.id])
  else
    match ClientConn.subscribe settings st.conn s with
    | Except.ok conn2 =>
      let cancels :=
        match List.lookup s.id st.running_queries with
        | some previous_query => [SrvAction.cancelQuery previous_query]
        | none => []
      let rq := (st.running_queries.filter (fun p => !(p.1 == s.id))) ++
        [(s.id, st.next_handle)]
      let queries := if needs_historical_events now s then [SrvAction.startQuery s] else []
      ({ conn := conn2, running_queries := rq, next_handle := st.next_handle + 1 },
        cancels ++ queries)
    | Except.error msg => (st, [SrvAction.notice ("Subscription error: " ++ msg)])

/-- The parsed shape of a client text frame (server.rs `NostrMessage`).
Payloads are irrelevant to frame dispatch, which only discriminates the
variant. -/
inductive NostrMsg where
  | eventMsg
  | subMsg
  | closeMsg
deriving DecidableEq, Repr

/-- The error variants the frame-dispatch code handles (error.rs is not
under src/; the variants and their handling are those matched in
`nostr_server`). -/
inductive ProtoErr where
  | protoParse
  | eventMaxLength (size : Nat)
  | connError
deriving DecidableEq, Repr

/-- server.rs `convert_to_msg`: parse the text frame (`none` models a serde
failure, reported as `ProtoParseError`); an `EVENT`/`AUTH` message longer
than a configured positive `max_event_bytes` is rejected with
`EventMaxLengthError(len)`. -/
def convert_to_msg (parsed : Option NostrMsg) (len : Nat) (max_bytes : Option Nat) :
    Except ProtoErr NostrMsg :=
  match parsed with
  | none => Except.error ProtoErr.protoParse
  | some m =>
    match m with
    | NostrMsg.eventMsg =>
      match max_bytes with
      | some max_size =>
        -- `if msg.len() > max_size && max_size > 0`
        if max_size < len ∧ 0 < max_size then
          Except.error (ProtoErr.eventMaxLength len)
        else Except.ok m
      | none => Except.ok m
    | _ => Except.ok m

/-- What the websocket read can yield in one turn of the select loop
(`ws_stream.next()`): a text frame (with its parse result and byte length),
the other frame kinds, or a transport error.  `capacityError size max`
models `WsError::Capacity(MessageTooLong { size, max_size })`, the frame
that exceeded the transport's configured size cap. -/
inductive WsNext where
  | text (parsed : Option NostrMsg) (len : Nat)
  | binary
  | ping
  | pong
  | capacityError (size : Nat) (max_size : Nat)
  | closeFrame
  | ioError
  | otherError
deriving DecidableEq, Repr

/-- Outcome of one `ws_next` arm: keep looping after sending the listed
NOTICE texts, leave the loop (disconnect, with the metric label), or hand a
parsed message to its command handler. -/
inductive StepResult where
  | continueLoop (notices : List String)
  | breakLoop (label : String)
  | dispatch (m : NostrMsg)
deriving DecidableEq, Repr

/-- server.rs `nostr_server`, the `ws_next` arm: the match on the websocket
read combined with the match on `convert_to_msg`'s result.  Oversize and
parse failures answer with one NOTICE and fall through to the next loop
iteration; close/IO conditions break the loop. -/
def frame_step (frame : WsNext) (max_bytes : Option Nat) : StepResult :=
  match frame with
  | WsNext.text parsed len =>
    match convert_to_msg parsed len max_bytes with
    | Except.ok m => StepResult.dispatch m
    | Except.error ProtoErr.protoParse =>
      StepResult.continueLoop ["could not parse command"]
    | Except.error (ProtoErr.eventMaxLength _) =>
      StepResult.continueLoop ["event exceeded max size"]
    | Except.error ProtoErr.connError => StepResult.breakLoop "error"
  | WsNext.binary => StepResult.continueLoop ["binary messages are not accepted"]
  | WsNext.ping => StepResult.continueLoop []
  | WsNext.pong => StepResult.continueLoop []
  | WsNext.capacityError size max_size =>
    StepResult.continueLoop
      ["message too large (" ++ toString size ++ " > " ++ toString max_size ++ ")"]
  | WsNext.closeFrame => StepResult.breakLoop "normal"
  | WsNext.ioError => StepResult.breakLoop "error"
  | WsNext.otherError => StepResult.breakLoop "error"

/-- authentication.rs: `nostr::Keys`, of which only `public_key()` (as its
string form) is read. -/
structure Keys where
  public_key : String
deriving DecidableEq, Repr

/-- A JWT as the jwt crate presents it here: an HMAC-SHA256-signed map of
string claims.  The model records the claim map and the secret the token was
signed with; `VerifyWithKey` recovers the claims exactly when the verifying
secret equals the signing secret (the standard assumption that the MAC is
unforgeable). -/
structure Token where
  claims : List (String × String)
  signed_with : String
deriving DecidableEq, Repr

/-- `token.verify_with_key(&signing_key)`: the claims when the secret
matches, an error otherwise. -/
def verify_with_key (t : Token) (secret : String) : Option (List (String × String)) :=
  if t.signed_with == secret then some t.claims else none

/-- Model of `Utc::now().checked_add_days(Days::new(1)).to_rfc3339()`: an
opaque rendering of the timestamp one day (86400 s) ahead of `now`. -/
def rfc3339_of (t : Nat) : String := "rfc3339:" ++ toString t

/-- authentication.rs `generate_auth_token`: sign the claims
`sub = key.public_key()`, `exp = now + 1 day` with the configured
`pay_to_relay.auth_secret`. -/
def generate_auth_token (key : Keys) (settings : Settings) (now : Nat) : Token :=
  { claims := [("sub", key.public_key), ("exp", rfc3339_of (now + 86400))]
  , signed_with := settings.auth_secret }

/-- authentication.rs `validate_auth_token`: verify the signature with the
configured secret and compare the `sub` claim with the key's public key.
No other claim — in particular not `exp` — is consulted, and the function
reads no clock. -/
def validate_auth_token (t : Token) (key : Keys) (settings : Settings) : Bool :=
  match verify_with_key t settings.auth_secret with
  | some claims =>
    match List.lookup "sub" claims with
    | some sub => sub == key.public_key
    | none => false
  | none => false

/-- Delete one author value from every filter's author list (used to state
that a non-hex author contributes nothing to the generated query). -/
def remove_author (v : String) (sub : Subscription) : Subscription :=
  { sub with filters := sub.filters.map (fun f =>
      { f with authors := f.authors.map (fun as => as.filter (fun a => !(a == v))) }) }

/-- Delete the id predicate from every filter that carries exactly the value
`v`. -/
def drop_id_value (v : String) (sub : Subscription) : Subscription :=
  { sub with filters := sub.filters.map (fun f =>
      if f.id == some v then { f with id := none } else f) }

/-- Delete the referenced-event predicate from every filter that carries
exactly the value `v`. -/
def drop_event_value (v : String) (sub : Subscription) : Subscription :=
  { sub with filters := sub.filters.map (fun f =>
      if f.event == some v then { f with event := none } else f) }

/-- Delete the referenced-pubkey predicate from every filter that carries
exactly the value `v`. -/
def drop_pubkey_value (v : String) (sub : Subscription) : Subscription :=
  { sub with filters := sub.filters.map (fun f =>
      if f.pubkey == some v then { f with pubkey := none } else f) }

/-- Erase every filter's limit field (used to state that the query path
never reads it). -/
def clear_limits (sub : Subscription) : Subscription :=
  { sub with filters := sub.filters.map (fun f => { f with limit := none }) }

/-- Concrete event with hex id `aa` and hex pubkey `bb` (counterexample and
witness input). -/
def ev_aa : Event :=
  { id := "aa", pubkey := "bb", created_at := 10, kind := 1, tags := []
  , content := "hello", sig := "00" }

/-- A store that already holds a row whose `event_hash` is the decoding of
`ev_aa.id` (that is, the byte 0xaa = 170). -/
def store_with_aa : Store :=
  [{ event_hash := [170], first_seen := 5, created_at := 3, author := [7]
   , kind := 1, content := "earlier", erefs := [], prefs := [] }]

/-- Subscription whose only filter asks for kind 1 with `limit = 1`. -/
def sub_limit1 : Subscription :=
  { id := "L", filters := [{ kind := some 1, limit := some 1 }] }

/-- Two kind-1 rows with distinct contents. -/
def store_two_kind1 : Store :=
  [{ event_hash := [1], first_seen := 1, created_at := 1, author := [2]
   , kind := 1, content := "first", erefs := [], prefs := [] },
   { event_hash := [2], first_seen := 2, created_at := 2, author := [2]
   , kind := 1, content := "second", erefs := [], prefs := [] }]

/-- Subscription whose only filter carries the odd-length hex author
`abc`: `is_hex` accepts it, so `query_from_sub` renders the malformed blob
literal and the prepared statement fails. -/
def sub_odd_author : Subscription :=
  { id := "q", filters := [{ authors := some ["abc"] }] }

/-- Settings with scraper limiting enabled (everything else off). -/
def settings_scrape : Settings :=
  { nip42_dms := false, limit_scrapers := true, max_subs := 16, auth_secret := "" }

/-- A registered kind-1 subscription under id `s`. -/
def sub_s_kind1 : Subscription :=
  { id := "s", filters := [{ kind := some 1 }] }

/-- A scraper reusing the id `s` with a different (empty) filter set. -/
def sub_s_scraper : Subscription :=
  { id := "s", filters := [{}] }

/-- Connection-task state with `sub_s_kind1` registered and its historical
query (handle 0) still running. -/
def st_s : ConnTaskState :=
  { conn := { subscriptions := [("s", sub_s_kind1)], auth_pubkey := none }
  , running_queries := [("s", 0)], next_handle := 1 }

/-- A registered kind-1 subscription under id `s2`. -/
def sub_s2_kind1 : Subscription :=
  { id := "s2", filters := [{ kind := some 1 }] }

/-- A scraper reusing the id `s2` with an empty filter. -/
def sub_s2_scraper : Subscription :=
  { id := "s2", filters := [{}] }

/-- Connection-task state with `sub_s2_kind1` registered and its historical
query (handle 0) still running. -/
def st_s2 : ConnTaskState :=
  { conn := { subscriptions := [("s2", sub_s2_kind1)], auth_pubkey := none }
  , running_queries := [("s2", 0)], next_handle := 1 }

/-- A kind-1 event broadcast after the scraper REQ. -/
def ev_k1 : Event :=
  { id := "cc", pubkey := "dd", created_at := 20, kind := 1, tags := []
  , content := "live", sig := "01" }

/-- Subscription carrying non-hex values: the author list holds `~~` next to
a hex author, and the id predicate is `~~`. -/
def sub_c3 : Subscription :=
  { id := "c3", filters := [{ authors := some ["~~", "aa"], id := some "~~" }] }

/-- A kind-4 direct message addressed (p tag) to pubkey `xx`. -/
def ev_dm : Event :=
  { id := "ee", pubkey := "yy", created_at := 30, kind := 4
  , tags := [["p", "xx"]], content := "dm", sig := "02" }

/-- A connection authenticated as pubkey `xx`. -/
def conn_xx : ClientConn :=
  { subscriptions := [], auth_pubkey := some "xx" }

/-- Settings with the direct-message authorization mode enabled. -/
def settings_dms : Settings :=
  { nip42_dms := true, limit_scrapers := false, max_subs := 16, auth_secret := "" }

/-- A non-scraper replacement for id `s` with different filters (kind 2). -/
def sub_s_kind2 : Subscription :=
  { id := "s", filters := [{ kind := some 2 }] }

/-- A connection-task state with nothing registered. -/
def st_fresh : ConnTaskState :=
  { conn := { subscriptions := [], auth_pubkey := none }
  , running_queries := [], next_handle := 0 }

/-- A scraper subscription under the fresh id `w`. -/
def sub_w : Subscription :=
  { id := "w", filters := [{}] }

/-- `write_event` never loses rows: any row predicate satisfied somewhere in
the store before a successful call is satisfied somewhere after it. -/
theorem write_event_any_mono {fault : Bool} {now : Nat} {s : Store} {e : Event}
    {n : Nat} {s2 : Store} {P : Row → Bool}
    (hw : write_event fault now s e = Except.ok (n, s2))
    (hs : s.any P = true) : s2.any P = true := by
  rcases hid : hexDecode? e.id with _ | idb
  · simp [write_event, hid] at hw
    rw [← hw.2]; exact hs
  · rcases hpk : hexDecode? e.pubkey with _ | pkb
    · simp [write_event, hid, hpk] at hw
      rw [← hw.2]; exact hs
    · by_cases hd : s.any (fun r => r.event_hash == idb) = true
      · simp [write_event, hid, hpk, hd] at hw
        rw [← hw.2]; exact hs
      · cases fault with
        | true => simp [write_event, hid, hpk, hd] at hw
        | false =>
          simp [write_event, hid, hpk, hd] at hw
          rw [← hw.2, List.any_append, hs]
          rfl

/-- Inversion of a non-zero `write_event` result: the event id decoded to a
blob that was absent from the store before the call and present after it. -/
theorem write_event_insert_inv {fault : Bool} {now : Nat} {s : Store} {e : Event}
    {n : Nat} {s2 : Store}
    (hw : write_event fault now s e = Except.ok (n, s2)) (hn : n ≠ 0) :
    ∃ idb, hexDecode? e.id = some idb ∧
      s.any (fun r => r.event_hash == idb) = false ∧
      s2.any (fun r => r.event_hash == idb) = true := by
  rcases hid : hexDecode? e.id with _ | idb
  · simp [write_event, hid] at hw
    exact absurd hw.1.symm hn
  · rcases hpk : hexDecode? e.pubkey with _ | pkb
    · simp [write_event, hid, hpk] at hw
      exact absurd hw.1.symm hn
    · by_cases hd : s.any (fun r => r.event_hash == idb) = true
      · simp [write_event, hid, hpk, hd] at hw
        exact absurd hw.1.symm hn
      · cases fault with
        | true => simp [write_event, hid, hpk, hd] at hw
        | false =>
          simp [write_event, hid, hpk, hd] at hw
          refine ⟨idb, rfl, by simpa using hd, ?_⟩
          rw [← hw.2, List.any_append]
          simp

/-- If the blob an identifier decodes to is already in the store, the ingest
loop never broadcasts an event carrying that identifier. -/
theorem countP_bcast_zero (now : Nat) (i : String) (b : List Nat)
    (hib : hexDecode? i = some b) :
    ∀ (q : List (Event × Bool)) (s : Store),
      s.any (fun r => r.event_hash == b) = true →
      ((db_writer_run now s q).2.countP (fun e => e.id == i)) = 0 := by
  intro q
  induction q with
  | nil => intro s _; simp [db_writer_run]
  | cons ef rest ih =>
    intro s hs
    obtain ⟨e, fault⟩ := ef
    cases hw : write_event fault now s e with
    | error err =>
      simp only [db_writer_run, hw]
      exact ih s hs
    | ok pr =>
      obtain ⟨n, s2⟩ := pr
      have hs2 : s2.any (fun r => r.event_hash == b) = true :=
        write_event_any_mono hw hs
      by_cases hn : n = 0
      · subst hn
        simp only [db_writer_run, hw, beq_self_eq_true, if_pos]
        exact ih s2 hs2
      · have hne : (n == 0) = false := by simp [hn]
        simp only [db_writer_run, hw, hne, Bool.false_eq_true, if_neg,
          not_false_eq_true, List.countP_cons]
        obtain ⟨idb, hid, hnotin, _⟩ := write_event_insert_inv hw hn
        have hpred : (e.id == i) = false := by
          cases hei : e.id == i
          · rfl
          · exfalso
            have hei2 : e.id = i := eq_of_beq hei
            rw [hei2, hib] at hid
            injection hid with hidb
            rw [← hidb] at hnotin
            rw [hs] at hnotin
            exact Bool.noConfusion hnotin
        rw [hpred]
        simp only [if_neg, Bool.false_eq_true, not_false_eq_true, Nat.add_zero]
        exact ih s2 hs2

/-- Along any run of the ingest loop, each event identifier is broadcast at
most once. -/
theorem countP_bcast_le_one (now : Nat) (i : String) :
    ∀ (q : List (Event × Bool)) (s : Store),
      ((db_writer_run now s q).2.countP (fun e => e.id == i)) ≤ 1 := by
  intro q
  induction q with
  | nil => intro s; simp [db_writer_run]
  | cons ef rest ih =>
    intro s
    obtain ⟨e, fault⟩ := ef
    cases hw : write_event fault now s e with
    | error err =>
      simp only [db_writer_run, hw]
      exact ih s
    | ok pr =>
      obtain ⟨n, s2⟩ := pr
      by_cases hn : n = 0
      · subst hn
        simp only [db_writer_run, hw, beq_self_eq_true, if_pos]
        exact ih s2
      · have hne : (n == 0) = false := by simp [hn]
        simp only [db_writer_run, hw, hne, Bool.false_eq_true, if_neg,
          not_false_eq_true, List.countP_cons]
        cases hei : e.id == i
        · simp only [if_neg, Bool.false_eq_true, not_false_eq_true, Nat.add_zero]
          exact ih s2
        · obtain ⟨idb, hid, _, hin⟩ := write_event_insert_inv hw hn
          have hib : hexDecode? i = some idb := by
            rw [← eq_of_beq hei]; exact hid
          have h0 := countP_bcast_zero now i idb hib rest s2 hin
          rw [h0]
          simp

/-- The broadcast list is exactly the events of the trace whose `write_event`
call returned `Ok` with a non-zero count. -/
theorem bcast_eq_trace_filter (now : Nat) :
    ∀ (q : List (Event × Bool)) (s : Store),
      (db_writer_run now s q).2 = (write_trace now s q).filterMap
        (fun p => match p.2 with
          | Except.ok n => if n == 0 then none else some p.1
          | Except.error _ => none) := by
  intro q
  induction q with
  | nil => intro s; simp [db_writer_run, write_trace]
  | cons ef rest ih =>
    intro s
    obtain ⟨e, fault⟩ := ef
    cases hw : write_event fault now s e with
    | error err =>
      simp only [db_writer_run, write_trace, hw, List.filterMap_cons]
      exact ih s
    | ok pr =>
      obtain ⟨n, s2⟩ := pr
      by_cases hn : n = 0
      · subst hn
        simp only [db_writer_run, write_trace, hw, beq_self_eq_true, if_pos,
          List.filterMap_cons]
        exact ih s2
      · have hne : (n == 0) = false := by simp [hn]
        simp only [db_writer_run, write_trace, hw, hne, Bool.false_eq_true,
          if_neg, not_false_eq_true, List.filterMap_cons]
        rw [ih s2]

/-- C1: in the ingest loop (`db_writer`), an event taken from the submit
queue is published on the broadcast channel if and only if its `write_event`
call returned `Ok` with a non-zero insert count — duplicates (count 0) and
errors broadcast nothing — and consequently any given event identifier is
broadcast at most once per run of the loop (first conjunct: the broadcast
list is exactly the non-zero-count successes of the write trace; second
conjunct: each identifier occurs at most once in the broadcast list, from
any starting store). -/
theorem c1_broadcast_iff_nonzero_insert :
    ∀ (now : Nat) (s : Store) (q : List (Event × Bool)),
      (db_writer_run now s q).2 = (write_trace now s q).filterMap
        (fun p => match p.2 with
          | Except.ok n => if n == 0 then none else some p.1
          | Except.error _ => none) ∧
      ∀ i : String, ((db_writer_run now s q).2.countP (fun e => e.id == i)) ≤ 1 :=
  fun now s q =>
    ⟨bcast_eq_trace_filter now q s, fun i => countP_bcast_le_one now i q s⟩

/-- The claim of C2 is false as stated: it quantifies over every store
state, but on a store that already holds a row with `ev_aa`'s event hash the
first `write_event` call reports 0 changed rows (INSERT OR IGNORE on the
UNIQUE `event_hash` index), not a non-zero count. -/
theorem c2_counterexample :
    ¬ (∃ n s2, write_event false 0 store_with_aa ev_aa = Except.ok (n, s2) ∧ n ≠ 0) := by
  intro h
  obtain ⟨n, s2, heq, hne⟩ := h
  have hcomp : write_event false 0 store_with_aa ev_aa = Except.ok (0, store_with_aa) := by
    rfl
  rw [hcomp] at heq
  injection heq with h1
  injection h1 with h2 h3
  exact hne h2.symm

/-- C2 (amended): for every event whose id and pubkey are decodable hex and
every store state holding no row with that event hash, `write_event` (with
no I/O fault) returns count 1 the first time and count 0 the second time,
and the store afterwards contains exactly one row whose `event_hash` equals
the decoded identifier. -/
theorem c2_insert_idempotent :
    ∀ (now now2 : Nat) (s : Store) (e : Event) (idb pkb : List Nat),
      hexDecode? e.id = some idb →
      hexDecode? e.pubkey = some pkb →
      s.countP (fun r => r.event_hash == idb) = 0 →
      ∃ s2, write_event false now s e = Except.ok (1, s2) ∧
        write_event false now2 s2 e = Except.ok (0, s2) ∧
        s2.countP (fun r => r.event_hash == idb) = 1 := by
  intro now now2 s e idb pkb hid hpk hcnt
  have hany : s.any (fun r => r.event_hash == idb) = false := by
    rw [List.any_eq_false]
    intro r hr
    exact List.countP_eq_zero.mp hcnt r hr
  refine ⟨s ++ [{ event_hash := idb
                , first_seen := now
                , created_at := e.created_at
                , author := pkb
                , kind := e.kind
                , content := serialize_event e
                , erefs := (get_event_tags e).filterMap hexDecode?
                , prefs := (get_pubkey_tags e).filterMap hexDecode? }], ?_, ?_, ?_⟩
  · simp [write_event, hid, hpk, hany]
  · simp [write_event, hid, hpk, List.any_append, hany]
  · simp [List.countP_append, hcnt, List.countP_cons]

/-- Witness for C2 (amended): inserting `ev_aa` twice into the empty store. -/
theorem c2_insert_idempotent_witness :
    ∃ s2, write_event false 0 [] ev_aa = Except.ok (1, s2) ∧
      write_event false 1 s2 ev_aa = Except.ok (0, s2) ∧
      s2.countP (fun r => r.event_hash == [170]) = 1 :=
  c2_insert_idempotent 0 1 [] ev_aa [170] [187] (by decide) (by decide) (by decide)

/-- C5 evaluated at failing inputs: `db_query` panics (unwrap) instead of
surfacing an error.  First conjunct: the subscription whose filter carries
the odd-length hex author `abc` passes `is_hex`, so `query_from_sub` renders
the malformed blob literal and `conn.prepare(&q).unwrap()` panics, for every
store.  Second conjunct: with the database unavailable,
`Connection::open_with_flags(..).unwrap()` panics for every subscription. -/
theorem c5_db_query_panics :
    (∀ rows : Store, db_query true sub_odd_author rows = QueryRun.panicked) ∧
    (∀ (sub : Subscription) (rows : Store), db_query false sub rows = QueryRun.panicked) := by
  constructor
  · intro rows
    have h : query_well_formed sub_odd_author = false := by decide
    simp [db_query, h]
  · intro sub rows
    rfl

/-- `List.isEmpty` is invariant under `map`. -/
theorem list_isEmpty_map {α β : Type} (t : α → β) (l : List α) :
    (l.map t).isEmpty = l.isEmpty := by
  cases l <;> rfl

/-- Pointwise-equal predicates give the same `List.any`. -/
theorem list_any_congr {α : Type} {p q : α → Bool} :
    ∀ l : List α, (∀ a ∈ l, p a = q a) → l.any p = l.any q := by
  intro l
  induction l with
  | nil => intro _; rfl
  | cons a l ih =>
    intro h
    simp only [List.any_cons, h a (List.mem_cons_self a l),
      ih (fun b hb => h b (List.mem_cons_of_mem a hb))]

/-- Pointwise-equal predicates give the same `List.all`. -/
theorem list_all_congr {α : Type} {p q : α → Bool} :
    ∀ l : List α, (∀ a ∈ l, p a = q a) → l.all p = l.all q := by
  intro l
  induction l with
  | nil => intro _; rfl
  | cons a l ih =>
    intro h
    simp only [List.all_cons, h a (List.mem_cons_self a l),
      ih (fun b hb => h b (List.mem_cons_of_mem a hb))]

/-- Any per-filter rewriting that preserves the generated clause, the clause
semantics and literal well-formedness leaves the query string, the result
stream and the whole `db_query` outcome unchanged. -/
theorem query_map_invariant (t : ReqFilter → ReqFilter)
    (hc : ∀ f, filter_clause (t f) = filter_clause f)
    (hm : ∀ f r, filter_matches_row (t f) r = filter_matches_row f r)
    (hw : ∀ f, filter_well_formed (t f) = filter_well_formed f)
    (sub : Subscription) (rows : Store) (avail : Bool) :
    query_from_sub { sub with filters := sub.filters.map t } = query_from_sub sub ∧
    query_results { sub with filters := sub.filters.map t } rows = query_results sub rows ∧
    db_query avail { sub with filters := sub.filters.map t } rows = db_query avail sub rows := by
  have hclause : (sub.filters.map t).map filter_clause = sub.filters.map filter_clause := by
    rw [List.map_map]
    exact List.map_congr_left (fun f _ => hc f)
  have hq : query_from_sub { sub with filters := sub.filters.map t } = query_from_sub sub := by
    simp only [query_from_sub, hclause]
  have hsel : ∀ r, row_selected { sub with filters := sub.filters.map t } r =
      row_selected sub r := by
    intro r
    simp only [row_selected, list_isEmpty_map, List.any_map]
    have h2 : sub.filters.any ((fun f => filter_matches_row f r) ∘ t) =
        sub.filters.any (fun f => filter_matches_row f r) :=
      list_any_congr sub.filters (fun f _ => hm f r)
    rw [h2]
  have hres : query_results { sub with filters := sub.filters.map t } rows =
      query_results sub rows := by
    simp only [query_results]
    rw [List.filter_congr (fun r _ => hsel r)]
  have hwfq : query_well_formed { sub with filters := sub.filters.map t } =
      query_well_formed sub := by
    simp only [query_well_formed, List.all_map]
    exact list_all_congr sub.filters (fun f _ => hw f)
  refine ⟨hq, hres, ?_⟩
  simp only [db_query, hwfq, hres, Subscription.get_id]

/-- The claim of C4 is false on the code: `sub_limit1` carries `limit = 1`,
yet the historical query streams both matching rows — `query_from_sub` never
emits a LIMIT clause and `db_query` streams every selected row. -/
theorem c4_counterexample :
    (∃ f ∈ sub_limit1.filters, f.limit = some 1) ∧
    db_query true sub_limit1 store_two_kind1 =
      QueryRun.completed
        [{ sub_id := "L", event := "first" }, { sub_id := "L", event := "second" }] := by
  constructor
  · exact ⟨_, List.mem_cons_self _ _, rfl⟩
  · rfl

/-- C4 (amended): the query path ignores `limit` entirely — erasing every
filter's limit changes neither the generated SQL string, nor the streamed
results, nor the whole `db_query` outcome; all matching rows are returned
regardless of any limit. -/
theorem c4_limit_ignored :
    ∀ (sub : Subscription) (rows : Store) (avail : Bool),
      query_from_sub (clear_limits sub) = query_from_sub sub ∧
      query_results (clear_limits sub) rows = query_results sub rows ∧
      db_query avail (clear_limits sub) rows = db_query avail sub rows :=
  fun sub rows avail =>
    query_map_invariant (fun f => { f with limit := none })
      (fun _ => rfl) (fun _ _ => rfl) (fun _ => rfl) sub rows avail

/-- Removing a non-hex value from a list does not change its hex-filtered
sublist. -/
theorem filter_is_hex_remove (v : String) (hv : is_hex v = false) :
    ∀ as : List String,
      ((as.filter (fun a => !(a == v))).filter is_hex) = as.filter is_hex := by
  intro as
  induction as with
  | nil => rfl
  | cons a as ih =>
    by_cases hav : a = v
    · subst hav
      simp [List.filter_cons, hv, ih]
    · have hb : (a == v) = false := by simp [hav]
      simp [List.filter_cons, hb, ih]

/-- Dropping a non-hex author leaves the generated clause unchanged. -/
theorem clause_remove_author (v : String) (hv : is_hex v = false) :
    ∀ f, filter_clause
      { f with authors := f.authors.map (fun as => as.filter (fun a => !(a == v))) } =
      filter_clause f := by
  intro f
  cases hA : f.authors with
  | none => simp [filter_clause, filter_components, hA]
  | some as => simp [filter_clause, filter_components, hA, filter_is_hex_remove v hv as]

/-- Dropping a non-hex author leaves the clause semantics unchanged. -/
theorem matches_remove_author (v : String) (hv : is_hex v = false) :
    ∀ f r, filter_matches_row
      { f with authors := f.authors.map (fun as => as.filter (fun a => !(a == v))) } r =
      filter_matches_row f r := by
  intro f r
  cases hA : f.authors with
  | none => simp [filter_matches_row, hA]
  | some as => simp [filter_matches_row, hA, filter_is_hex_remove v hv as]

/-- Dropping a non-hex author leaves literal well-formedness unchanged. -/
theorem wf_remove_author (v : String) (hv : is_hex v = false) :
    ∀ f, filter_well_formed
      { f with authors := f.authors.map (fun as => as.filter (fun a => !(a == v))) } =
      filter_well_formed f := by
  intro f
  cases hA : f.authors with
  | none => simp [filter_well_formed, hA]
  | some as => simp [filter_well_formed, hA, filter_is_hex_remove v hv as]

/-- Erasing a non-hex id predicate leaves the generated clause unchanged. -/
theorem clause_drop_id (v : String) (hv : is_hex v = false) :
    ∀ f, filter_clause (if f.id == some v then { f with id := none } else f) =
      filter_clause f := by
  intro f
  by_cases hb : f.id = some v
  · simp [hb, filter_clause, filter_components, hv]
  · have hbeq : (f.id == some v) = false := by simp [hb]
    simp [hbeq]

/-- Erasing a non-hex id predicate leaves the clause semantics unchanged. -/
theorem matches_drop_id (v : String) (hv : is_hex v = false) :
    ∀ f r, filter_matches_row (if f.id == some v then { f with id := none } else f) r =
      filter_matches_row f r := by
  intro f r
  by_cases hb : f.id = some v
  · simp [hb, filter_matches_row, hv]
  · have hbeq : (f.id == some v) = false := by simp [hb]
    simp [hbeq]

/-- Erasing a non-hex id predicate leaves well-formedness unchanged. -/
theorem wf_drop_id (v : String) (hv : is_hex v = false) :
    ∀ f, filter_well_formed (if f.id == some v then { f with id := none } else f) =
      filter_well_formed f := by
  intro f
  by_cases hb : f.id = some v
  · simp [hb, filter_well_formed, hv]
  · have hbeq : (f.id == some v) = false := by simp [hb]
    simp [hbeq]

/-- Erasing a non-hex referenced-event predicate leaves the clause
unchanged. -/
theorem clause_drop_event (v : String) (hv : is_hex v = false) :
    ∀ f, filter_clause (if f.event == some v then { f with event := none } else f) =
      filter_clause f := by
  intro f
  by_cases hb : f.event = some v
  · simp [hb, filter_clause, filter_components, hv]
  · have hbeq : (f.event == some v) = false := by simp [hb]
    simp [hbeq]

/-- Erasing a non-hex referenced-event predicate leaves the semantics
unchanged. -/
theorem matches_drop_event (v : String) (hv : is_hex v = false) :
    ∀ f r, filter_matches_row (if f.event == some v then { f with event := none } else f) r =
      filter_matches_row f r := by
  intro f r
  by_cases hb : f.event = some v
  · simp [hb, filter_matches_row, hv]
  · have hbeq : (f.event == some v) = false := by simp [hb]
    simp [hbeq]

/-- Erasing a non-hex referenced-event predicate leaves well-formedness
unchanged. -/
theorem wf_drop_event (v : String) (hv : is_hex v = false) :
    ∀ f, filter_well_formed (if f.event == some v then { f with event := none } else f) =
      filter_well_formed f := by
  intro f
  by_cases hb : f.event = some v
  · simp [hb, filter_well_formed, hv]
  · have hbeq : (f.event == some v) = false := by simp [hb]
    simp [hbeq]

/-- Erasing a non-hex referenced-pubkey predicate leaves the clause
unchanged. -/
theorem clause_drop_pubkey (v : String) (hv : is_hex v = false) :
    ∀ f, filter_clause (if f.pubkey == some v then { f with pubkey := none } else f) =
      filter_clause f := by
  intro f
  by_cases hb : f.pubkey = some v
  · simp [hb, filter_clause, filter_components, hv]
  · have hbeq : (f.pubkey == some v) = false := by simp [hb]
    simp [hbeq]

/-- Erasing a non-hex referenced-pubkey predicate leaves the semantics
unchanged. -/
theorem matches_drop_pubkey (v : String) (hv : is_hex v = false) :
    ∀ f r, filter_matches_row (if f.pubkey == some v then { f with pubkey := none } else f) r =
      filter_matches_row f r := by
  intro f r
  by_cases hb : f.pubkey = some v
  · simp [hb, filter_matches_row, hv]
  · have hbeq : (f.pubkey == some v) = false := by simp [hb]
    simp [hbeq]

/-- Erasing a non-hex referenced-pubkey predicate leaves well-formedness
unchanged. -/
theorem wf_drop_pubkey (v : String) (hv : is_hex v = false) :
    ∀ f, filter_well_formed (if f.pubkey == some v then { f with pubkey := none } else f) =
      filter_well_formed f := by
  intro f
  by_cases hb : f.pubkey = some v
  · simp [hb, filter_well_formed, hv]
  · have hbeq : (f.pubkey == some v) = false := by simp [hb]
    simp [hbeq]

/-- C3: a user-provided identifier or pubkey value that is not syntactically
hex is rejected by query construction.  Formalisation: deleting such a value
from the subscription (removing it from an author list, or erasing the id /
referenced-event / referenced-pubkey predicate that carries it) leaves the
generated SQL string — so the value is never incorporated into it — and the
set of returned events unchanged, so no event is returned on account of that
value. -/
theorem c3_nonhex_values_inert :
    ∀ (sub : Subscription) (v : String), is_hex v = false →
      (query_from_sub (remove_author v sub) = query_from_sub sub ∧
       query_from_sub (drop_id_value v sub) = query_from_sub sub ∧
       query_from_sub (drop_event_value v sub) = query_from_sub sub ∧
       query_from_sub (drop_pubkey_value v sub) = query_from_sub sub) ∧
      ∀ rows : Store,
        query_results (remove_author v sub) rows = query_results sub rows ∧
        query_results (drop_id_value v sub) rows = query_results sub rows ∧
        query_results (drop_event_value v sub) rows = query_results sub rows ∧
        query_results (drop_pubkey_value v sub) rows = query_results sub rows := by
  intro sub v hv
  have ha := fun rows => query_map_invariant
    (fun f => { f with authors := f.authors.map (fun as => as.filter (fun a => !(a == v))) })
    (clause_remove_author v hv) (matches_remove_author v hv) (wf_remove_author v hv)
    sub rows true
  have hi := fun rows => query_map_invariant
    (fun f => if f.id == some v then { f with id := none } else f)
    (clause_drop_id v hv) (matches_drop_id v hv) (wf_drop_id v hv) sub rows true
  have he := fun rows => query_map_invariant
    (fun f => if f.event == some v then { f with event := none } else f)
    (clause_drop_event v hv) (matches_drop_event v hv) (wf_drop_event v hv) sub rows true
  have hp := fun rows => query_map_invariant
    (fun f => if f.pubkey == some v then { f with pubkey := none } else f)
    (clause_drop_pubkey v hv) (matches_drop_pubkey v hv) (wf_drop_pubkey v hv) sub rows true
  exact ⟨⟨(ha []).1, (hi []).1, (he []).1, (hp []).1⟩,
    fun rows => ⟨(ha rows).2.1, (hi rows).2.1, (he rows).2.1, (hp rows).2.1⟩⟩

/-- Witness for C3 at the concrete subscription `sub_c3` and the non-hex
value `~~`. -/
theorem c3_nonhex_values_inert_witness :
    is_hex "~~" = false ∧
    query_from_sub (remove_author "~~" sub_c3) = query_from_sub sub_c3 ∧
    query_from_sub (drop_id_value "~~" sub_c3) = query_from_sub sub_c3 ∧
    query_results (drop_id_value "~~" sub_c3) store_two_kind1 =
      query_results sub_c3 store_two_kind1 := by
  have h := c3_nonhex_values_inert sub_c3 "~~" (by decide)
  exact ⟨by decide, h.1.1, h.1.2.1, (h.2 store_two_kind1).2.1⟩

/-- Replacing the registry entry for an id that is present makes the lookup
of that id return the new subscription. -/
theorem lookup_replace_sub (s : Subscription) :
    ∀ l : List (String × Subscription),
      (List.lookup s.id l).isSome = true →
      List.lookup s.id (replace_sub l s) = some s := by
  intro l
  induction l with
  | nil => intro h; simp [List.lookup] at h
  | cons p l ih =>
    intro h
    obtain ⟨k, sub2⟩ := p
    by_cases hk : k = s.id
    · subst hk
      simp only [replace_sub, List.map_cons, if_true]
      simp [List.lookup]
    · have hk2 : (s.id == k) = false :=
        beq_eq_false_iff_ne.mpr (fun h2 => hk h2.symm)
      simp only [replace_sub, List.map_cons]
      rw [if_neg hk]
      simp only [List.lookup, hk2]
      simp only [List.lookup, hk2] at h
      exact ih h

/-- The claim of C6 is false as stated in its replacement half: with scraper
limiting enabled, a REQ reusing the registered id `s` with different filters
— the empty (scraper) filter set, while the registered subscription filters
on kind 1 — is short-circuited with an EOSE; the previous query's
cancellation handle is not fired and the registry entry is not replaced
(the state is returned unchanged). -/
theorem c6_counterexample :
    handle_req settings_scrape 0 st_s sub_s_scraper = (st_s, [SrvAction.sendEOSE "s"]) ∧
    sub_s_scraper.filters ≠ sub_s_kind1.filters ∧
    sub_s_scraper.id = sub_s_kind1.id := by
  refine ⟨by decide, by decide, rfl⟩

/-- C6 (amended): a REQ identical to a registered subscription changes
nothing — no action is produced, so no query starts and nothing is
cancelled.  A REQ reusing a registered id with different filters fires the
previous historical query's cancellation handle and replaces the registry
entry with the new filter set, provided the scraper short-circuit does not
apply (otherwise only an EOSE is sent and nothing changes, per C7). -/
theorem c6_duplicate_ignored_replace_cancels :
    ∀ (settings : Settings) (now : Nat) (st : ConnTaskState) (s : Subscription),
      (has_subscription st.conn s = true → handle_req settings now st s = (st, [])) ∧
      (∀ previous : Nat,
        has_subscription st.conn s = false →
        (settings.limit_scrapers && s.is_scraper) = false →
        List.lookup s.id st.running_queries = some previous →
        (List.lookup s.id st.conn.subscriptions).isSome = true →
        SrvAction.cancelQuery previous ∈ (handle_req settings now st s).2 ∧
        List.lookup s.id (handle_req settings now st s).1.conn.subscriptions = some s) := by
  intro settings now st s
  constructor
  · intro h
    simp [handle_req, h]
  · intro previous h1 h2 h3 h4
    obtain ⟨old, hold⟩ := Option.isSome_iff_exists.mp h4
    have hsub : ClientConn.subscribe settings st.conn s =
        Except.ok { st.conn with subscriptions := replace_sub st.conn.subscriptions s } := by
      simp [ClientConn.subscribe, hold]
    simp only [handle_req, h1, Bool.false_eq_true, if_neg, not_false_eq_true,
      h2, hsub, h3]
    constructor
    · exact List.mem_cons_self _ _
    · exact lookup_replace_sub s st.conn.subscriptions h4

/-- Witness for C6 (amended): replacing the kind-1 subscription `s` with a
kind-2 one fires handle 0 and re-registers the id. -/
theorem c6_witness :
    SrvAction.cancelQuery 0 ∈ (handle_req settings_scrape 5 st_s sub_s_kind2).2 ∧
    List.lookup "s" (handle_req settings_scrape 5 st_s sub_s_kind2).1.conn.subscriptions =
      some sub_s_kind2 :=
  (c6_duplicate_ignored_replace_cancels settings_scrape 5 st_s sub_s_kind2).2 0
    (by decide) (by decide) (by decide) (by decide)

/-- A key that looks up to nothing is the first component of no list
entry. -/
theorem lookup_none_not_fst :
    ∀ (l : List (String × Subscription)) (sid : String),
      List.lookup sid l = none → ∀ p ∈ l, (p.1 == sid) = false := by
  intro l sid
  induction l with
  | nil => intro _ p hp; exact absurd hp (List.not_mem_nil p)
  | cons q l ih =>
    intro h p hp
    obtain ⟨k, v⟩ := q
    cases hks : (sid == k) with
    | true =>
      simp only [List.lookup, hks] at h
      exact Option.noConfusion h
    | false =>
      simp only [List.lookup, hks] at h
      cases List.mem_cons.mp hp with
      | inl hh =>
        subst hh
        exact beq_eq_false_iff_ne.mpr (fun h2 => by
          have h3 : k = sid := h2
          rw [h3] at hks
          rw [beq_self_eq_true] at hks
          exact Bool.noConfusion hks)
      | inr hh => exact ih h p hh

/-- If an id is not registered, the live arm produces no frame carrying that
id (stated over the raw registry list that `live_frames` folds). -/
theorem frames_all_ne (settings : Settings) (c : ClientConn) (e : Event) (sid : String) :
    ∀ l : List (String × Subscription),
      List.lookup sid l = none →
      ((l.filterMap (fun p =>
        if interested_in_event p.2 e then
          if allowed_to_send (some e) c settings then
            some (p.1, serialize_event e)
          else none
        else none)).all (fun p => !(p.1 == sid))) = true := by
  intro l h
  rw [List.all_eq_true]
  intro q hq
  rw [List.mem_filterMap] at hq
  obtain ⟨p, hp, hf⟩ := hq
  have hq1 : q.1 = p.1 := by
    split at hf
    · split at hf
      · injection hf with hf2
        rw [← hf2]
      · exact Option.noConfusion hf
    · exact Option.noConfusion hf
  have hne := lookup_none_not_fst l sid h p hp
  rw [hq1, hne]
  rfl

/-- The claim of C7 is false in its last conjunct: with scraper limiting on,
the scraper REQ reusing the registered id `s2` is answered with one EOSE and
no query, but the previously registered kind-1 subscription under `s2`
remains, and a later broadcast kind-1 event is still delivered as an EVENT
frame for that id. -/
theorem c7_counterexample :
    handle_req settings_scrape 0 st_s2 sub_s2_scraper = (st_s2, [SrvAction.sendEOSE "s2"]) ∧
    live_frames settings_scrape st_s2.conn ev_k1 = [("s2", serialize_event ev_k1)] := by
  constructor
  · decide
  · rfl

/-- C7 (amended): with scraper limiting enabled, a scraper REQ that is not an
identical duplicate is short-circuited — the handler emits exactly one EOSE
frame for that id, starts no query, and leaves the connection state (registry
and running queries) unchanged; and if the id is fresh, no live EVENT frame
for that id is delivered either (an existing subscription under the same id,
however, keeps delivering, which is what the counterexample shows). -/
theorem c7_scraper_short_circuit :
    ∀ (settings : Settings) (now : Nat) (st : ConnTaskState) (s : Subscription),
      settings.limit_scrapers = true →
      s.is_scraper = true →
      has_subscription st.conn s = false →
      handle_req settings now st s = (st, [SrvAction.sendEOSE s.id]) ∧
      (List.lookup s.id st.conn.subscriptions = none →
        ∀ e : Event,
          ((live_frames settings st.conn e).all (fun p => !(p.1 == s.id))) = true) := by
  intro settings now st s h1 h2 h3
  constructor
  · simp [handle_req, h3, h1, h2]
  · intro hfresh e
    exact frames_all_ne settings st.conn e s.id st.conn.subscriptions hfresh

/-- Witness for C7 (amended): a scraper REQ under the fresh id `w` on an
empty connection. -/
theorem c7_scraper_short_circuit_witness :
    handle_req settings_scrape 3 st_fresh sub_w = (st_fresh, [SrvAction.sendEOSE "w"]) ∧
    ((live_frames settings_scrape st_fresh.conn ev_k1).all (fun p => !(p.1 == "w"))) = true := by
  have h := c7_scraper_short_circuit settings_scrape 3 st_fresh sub_w rfl (by decide) (by decide)
  exact ⟨h.1, h.2 (by decide) ev_k1⟩

/-- C8: outbound direct-message gating.  With the mode disabled every event
(parsed or not) is allowed; with it enabled, a parsed event of a kind other
than 4, 44, 1059 is allowed; and an event of kind 4, 44 or 1059 is allowed
only if the connection is authenticated and the authenticated pubkey equals
the event's first p-tag value or the event's author. -/
theorem c8_dm_gating :
    ∀ (settings : Settings) (conn : ClientConn) (e : Event),
      (settings.nip42_dms = false →
        ∀ parsed : Option Event, allowed_to_send parsed conn settings = true) ∧
      (settings.nip42_dms = true →
        (e.kind == 4 || e.kind == 44 || e.kind == 1059) = false →
        allowed_to_send (some e) conn settings = true) ∧
      (settings.nip42_dms = true →
        (e.kind == 4 || e.kind == 44 || e.kind == 1059) = true →
        allowed_to_send (some e) conn settings = true →
        ∃ auth, conn.auth_pubkey = some auth ∧
          ((tag_values_by_name "p" e).head? = some auth ∨ e.pubkey = auth)) := by
  intro settings conn e
  refine ⟨?_, ?_, ?_⟩
  · intro h parsed
    simp [allowed_to_send, h]
  · intro h hk
    simp only [allowed_to_send, h, if_true]
    simp only [hk, Bool.false_eq_true, if_neg, not_false_eq_true]
  · intro h hk hallow
    simp only [allowed_to_send, h, if_true] at hallow
    rw [hk] at hallow
    simp only [if_true] at hallow
    cases hauth : conn.auth_pubkey with
    | none =>
      rw [hauth] at hallow
      exact Bool.noConfusion hallow
    | some auth =>
      cases hrec : (tag_values_by_name "p" e).head? with
      | none =>
        rw [hauth, hrec] at hallow
        exact Bool.noConfusion hallow
      | some recipient =>
        rw [hauth, hrec] at hallow
        refine ⟨auth, rfl, ?_⟩
        rcases Bool.or_eq_true_iff.mp hallow with h1 | h2
        · left
          exact congrArg some (eq_of_beq h1)
        · right
          exact eq_of_beq h2

/-- Witness for C8: with the mode on, the kind-4 event `ev_dm` (p tag `xx`)
is allowed on the connection authenticated as `xx`, so the gate yields the
authenticated pubkey as recipient or author. -/
theorem c8_dm_gating_witness :
    ∃ auth, conn_xx.auth_pubkey = some auth ∧
      ((tag_values_by_name "p" ev_dm).head? = some auth ∨ ev_dm.pubkey = auth) :=
  (c8_dm_gating settings_dms conn_xx ev_dm).2.2 rfl (by decide) (by decide)

/-- C9: an oversize client frame is answered with exactly one NOTICE and the
connection loop continues.  First conjunct: a frame over the transport size
cap (`WsError::Capacity`) yields one `message too large (size > max)` NOTICE
and the loop continues.  Second conjunct: an EVENT frame longer than the
configured positive `max_event_bytes` yields one `event exceeded max size`
NOTICE and the loop continues. -/
theorem c9_oversize_frame_notice :
    ∀ (size max_size len mb : Nat) (max_bytes : Option Nat),
      frame_step (WsNext.capacityError size max_size) max_bytes =
        StepResult.continueLoop
          ["message too large (" ++ toString size ++ " > " ++ toString max_size ++ ")"] ∧
      (0 < mb → mb < len →
        frame_step (WsNext.text (some NostrMsg.eventMsg) len) (some mb) =
          StepResult.continueLoop ["event exceeded max size"]) := by
  intro size max_size len mb max_bytes
  constructor
  · rfl
  · intro h1 h2
    simp only [frame_step, convert_to_msg]
    rw [if_pos ⟨h2, h1⟩]

/-- Witness for C9: an 11-byte EVENT frame against a 10-byte limit. -/
theorem c9_oversize_frame_notice_witness :
    frame_step (WsNext.text (some NostrMsg.eventMsg) 11) (some 10) =
      StepResult.continueLoop ["event exceeded max size"] :=
  (c9_oversize_frame_notice 0 0 11 10 none).2 (by decide) (by decide)

/-- C10: `validate_auth_token` never consults the `exp` claim (or any
clock).  First conjunct: every token signed with the configured secret whose
`sub` claim equals the key's public key validates, whatever its other claims
— in particular whatever `exp` says.  Second conjunct: a token produced by
`generate_auth_token` at any time validates, although it embeds an `exp` one
day ahead; nothing ever expires it. -/
theorem c10_token_expiry_ignored :
    ∀ (claims : List (String × String)) (key : Keys) (settings : Settings) (now : Nat),
      (List.lookup "sub" claims = some key.public_key →
        validate_auth_token { claims := claims, signed_with := settings.auth_secret }
          key settings = true) ∧
      validate_auth_token (generate_auth_token key settings now) key settings = true := by
  intro claims key settings now
  constructor
  · intro h
    simp [validate_auth_token, verify_with_key, h]
  · simp [validate_auth_token, verify_with_key, generate_auth_token, List.lookup]

/-- Witness for C10: a token carrying a long-past `exp` claim still
validates. -/
theorem c10_token_expiry_ignored_witness :
    validate_auth_token
      { claims := [("exp", "rfc3339:0"), ("sub", "pk1")], signed_with := "sec" }
      { public_key := "pk1" } { auth_secret := "sec" } = true :=
  (c10_token_expiry_ignored [("exp", "rfc3339:0"), ("sub", "pk1")]
    { public_key := "pk1" } { auth_secret := "sec" } 0).1 (by decide)
